import Mathlib

/-!
Shallow embedding of the Arachne web-scraper core (Go) in Lean 4.

Source files modelled:
* `errors.go`      — error classification (`isRetryableError`, `isRetryableStatusCode`).
* `circuit_breaker.go` — per-host circuit breaker state machine.
* `main.go`        — retry loop (`doScrape`), title extraction
  (`extractTitle`, `extractHTMLTitle`, `extractJSONTitle`), batch executor
  (`ScrapeURLs`) and pagination executor (`ScrapeSite`).
* `api.go`         — `HandleScrape` and `executeScrapingJob`.

Conventions: Go `time.Time` values are modelled as `Nat` ticks; two adjacent
`time.Now()` calls inside one critical section are modelled as the same tick.
Go strings are Lean `String`s (byte indexing of ASCII text coincides with
character indexing).  Go standard-library routines used by the code
(`strings.Contains`, `strings.Index`, `strings.TrimSpace`, `sort.Strings`,
`encoding/json`) are given executable models below.
-/

namespace Arachne

/-! ### String helpers (models of Go `strings` routines) -/

/-- The character `\x7b` (left curly brace), used when scanning JSON. -/
def lcurly : Char := Char.ofNat 123

/-- The character `\x7d` (right curly brace). -/
def rcurly : Char := Char.ofNat 125

/-- The character `[`. -/
def lbrack : Char := Char.ofNat 91

/-- ASCII lower-casing of one character (model of the lowering performed by
`strings.ToLower` on the ASCII patterns the code uses). -/
def lowerChar (c : Char) : Char :=
  if 65 ≤ c.toNat ∧ c.toNat ≤ 90 then Char.ofNat (c.toNat + 32) else c

/-- ASCII lower-casing of a string (model of `strings.ToLower`). -/
def lowerStr (s : String) : String := ⟨s.data.map lowerChar⟩

/-- Does `needle` occur as a contiguous infix of `hay`? -/
def infixOf (needle hay : List Char) : Bool :=
  needle.isPrefixOf hay ||
    match hay with
    | [] => false
    | _ :: t => infixOf needle t

/-- Model of Go `strings.Contains s sub` (case-sensitive). -/
def goContains (s sub : String) : Bool := infixOf sub.data s.data

/-- Model of the `contains` helper in `errors.go`: case-insensitive
substring test via `strings.ToLower` on both arguments. -/
def containsCI (s sub : String) : Bool := goContains (lowerStr s) (lowerStr sub)

/-- Index of the first occurrence of `needle` in `hay`, starting the count at
`acc`. -/
def idxAux (needle : List Char) : List Char → Nat → Option Nat
  | hay, acc =>
    if needle.isPrefixOf hay then some acc
    else
      match hay with
      | [] => none
      | _ :: t => idxAux needle t (acc + 1)

/-- Model of Go `strings.Index hay needle` (`none` for Go's `-1`). -/
def goIndex (hay needle : List Char) : Option Nat := idxAux needle hay 0

/-- Model of Go `strings.HasPrefix`. -/
def goHasPrefix (s pre : String) : Bool := pre.data.isPrefixOf s.data

/-- Whitespace characters recognised by the model of `strings.TrimSpace`. -/
def isSpaceChar (c : Char) : Bool :=
  c = Char.ofNat 32 || c = Char.ofNat 9 || c = Char.ofNat 10 ||
  c = Char.ofNat 13 || c = Char.ofNat 11 || c = Char.ofNat 12

/-- Model of Go `strings.TrimSpace`. -/
def goTrimSpace (s : String) : String :=
  ⟨((s.data.dropWhile isSpaceChar).reverse.dropWhile isSpaceChar).reverse⟩

/-- Byte-lexicographic strict order on character lists (for UTF-8 encoded
strings byte order and code-point order agree). -/
def ltChars : List Char → List Char → Bool
  | [], [] => false
  | [], _ :: _ => true
  | _ :: _, [] => false
  | a :: as, b :: bs =>
    if a.toNat < b.toNat then true
    else if b.toNat < a.toNat then false
    else ltChars as bs

/-- Strict `<` on Go strings, as used by `sort.Strings`. -/
def ltStr (a b : String) : Bool := ltChars a.data b.data

/-- Insert a string into a `ltStr`-sorted list. -/
def insertSorted (x : String) : List String → List String
  | [] => [x]
  | y :: ys => if ltStr x y then x :: y :: ys else y :: insertSorted x ys

/-- Insertion sort by `ltStr` (model of `sort.Strings`). -/
def sortStrs : List String → List String
  | [] => []
  | x :: xs => insertSorted x (sortStrs xs)

/-! ### `errors.go` — retryability classification -/

/-- The `retryablePatterns` list of `isRetryableError` (`errors.go`). -/
def retryablePatterns : List String :=
  ["timeout", "connection refused", "no route to host",
   "network is unreachable", "connection reset", "broken pipe", "EOF"]

/-- Model of `isRetryableError` (`errors.go`): the error's message contains
one of the listed patterns, case-insensitively.  A `nil` error is modelled by
not calling this function. -/
def isRetryableError (msg : String) : Bool :=
  retryablePatterns.any (fun p => containsCI msg p)

/-- Model of `isRetryableStatusCode` (`errors.go`). -/
def isRetryableStatusCode (code : Nat) : Bool :=
  code == 408 || code == 429 || code == 500 ||
  code == 502 || code == 503 || code == 504

/-! ### JSON values and parsing

Executable model of the fragment of Go's `encoding/json` used by the code:
`json.Unmarshal` into `map[string]interface` (used by `extractJSONTitle`)
and `json.Decoder.Decode` into a struct (used by `HandleScrape`). -/

/-- A parsed JSON value.  The numeric payload keeps the raw text, because the
modelled code never inspects numbers (it only type-asserts strings). -/
inductive JVal where
  | null
  | bool (b : Bool)
  | num (raw : String)
  | str (s : String)
  | arr (elems : List JVal)
  | obj (fields : List (String × JVal))

/-- The double-quote character. -/
def quoteC : Char := Char.ofNat 34

/-- The backslash character. -/
def backslashC : Char := Char.ofNat 92

/-- The right square bracket. -/
def rbrackC : Char := Char.ofNat 93

/-- The comma character. -/
def commaC : Char := Char.ofNat 44

/-- The colon character. -/
def colonC : Char := Char.ofNat 58

/-- The minus character. -/
def minusC : Char := Char.ofNat 45

/-- Skip JSON inter-token whitespace. -/
def skipWs (s : List Char) : List Char :=
  s.dropWhile (fun c => c = Char.ofNat 32 || c = Char.ofNat 9 ||
    c = Char.ofNat 10 || c = Char.ofNat 13)

/-- Value of one hexadecimal digit. -/
def hexVal (c : Char) : Option Nat :=
  if 48 ≤ c.toNat ∧ c.toNat ≤ 57 then some (c.toNat - 48)
  else if 97 ≤ c.toNat ∧ c.toNat ≤ 102 then some (c.toNat - 87)
  else if 65 ≤ c.toNat ∧ c.toNat ≤ 70 then some (c.toNat - 55)
  else none

/-- Scan the remainder of a JSON string literal (the opening quote has been
consumed); returns the decoded string and the input after the closing quote.
The fuel argument only bounds the recursion; every step consumes at least one
character, so `length + 1` fuel always suffices. -/
def scanStrF : Nat → List Char → List Char → Option (String × List Char)
  | 0, _, _ => none
  | _ + 1, _, [] => none
  | fuel + 1, acc, c :: rest =>
    if c = quoteC then some (⟨acc.reverse⟩, rest)
    else if c = backslashC then
      match rest with
      | [] => none
      | e :: rest2 =>
        if e = quoteC then scanStrF fuel (quoteC :: acc) rest2
        else if e = backslashC then scanStrF fuel (backslashC :: acc) rest2
        else if e = '/' then scanStrF fuel ('/' :: acc) rest2
        else if e = 'b' then scanStrF fuel (Char.ofNat 8 :: acc) rest2
        else if e = 'f' then scanStrF fuel (Char.ofNat 12 :: acc) rest2
        else if e = 'n' then scanStrF fuel (Char.ofNat 10 :: acc) rest2
        else if e = 'r' then scanStrF fuel (Char.ofNat 13 :: acc) rest2
        else if e = 't' then scanStrF fuel (Char.ofNat 9 :: acc) rest2
        else if e = 'u' then
          match rest2 with
          | h1 :: h2 :: h3 :: h4 :: rest3 =>
            match hexVal h1, hexVal h2, hexVal h3, hexVal h4 with
            | some a, some b, some c2, some d =>
              scanStrF fuel (Char.ofNat (a * 4096 + b * 256 + c2 * 16 + d) :: acc) rest3
            | _, _, _, _ => none
          | _ => none
        else none
    else scanStrF fuel (c :: acc) rest

/-- Scan a JSON string literal with sufficient fuel. -/
def scanStr (acc : List Char) (s : List Char) : Option (String × List Char) :=
  scanStrF (s.length + 1) acc s

/-- Is `c` an ASCII digit? -/
def isDigitC (c : Char) : Bool := 48 ≤ c.toNat ∧ c.toNat ≤ 57

/-- Scan a JSON number; returns its raw text and the rest of the input. -/
def parseNum (s : List Char) : Option (String × List Char) :=
  let (sign, s1) :=
    match s with
    | c :: t => if c = minusC then ([c], t) else ([], s)
    | [] => ([], s)
  let intRes : Option (List Char × List Char) :=
    match s1 with
    | c :: t =>
      if c = '0' then some ([c], t)
      else if isDigitC c then
        let (ds, t2) := t.span isDigitC
        some (c :: ds, t2)
      else none
    | [] => none
  match intRes with
  | none => none
  | some (ip, s2) =>
    let (fp, s3) :=
      match s2 with
      | c :: t =>
        if c = '.' then
          let (ds, t2) := t.span isDigitC
          if ds = [] then ([], s2) else (c :: ds, t2)
        else ([], s2)
      | [] => ([], s2)
    let fracBad : Bool :=
      match s2 with
      | c :: t => c = '.' && (t.span isDigitC).1 = []
      | [] => false
    if fracBad then none
    else
      let expRes : Option (List Char × List Char) :=
        match s3 with
        | c :: t =>
          if c = 'e' ∨ c = 'E' then
            let (sg, t1) :=
              match t with
              | d :: t2 => if d = '+' ∨ d = minusC then ([d], t2) else ([], t)
              | [] => ([], t)
            let (ds, t2) := t1.span isDigitC
            if ds = [] then none else some (c :: (sg ++ ds), t2)
          else some ([], s3)
        | [] => some ([], s3)
      match expRes with
      | none => none
      | some (ep, s4) => some (⟨sign ++ ip ++ fp ++ ep⟩, s4)

/-- A parsing mode: one JSON value, object members, or array elements. -/
inductive PMode where
  | pv
  | pm
  | pe

/-- A parsing result: a value, object fields, or array elements. -/
inductive POut where
  | val (v : JVal)
  | fields (fs : List (String × JVal))
  | elems (es : List JVal)

/-- Parse a JSON fragment.  In mode `pv` one value is parsed; in mode `pm`
the members of an object, positioned at the first key and consuming the
closing brace; in mode `pe` the elements of an array, positioned at the
first element and consuming the closing bracket.  `fuel` bounds the nesting
depth; every nesting level consumes at least one character, so callers pass
`length + 1`. -/
def parseStep : Nat → PMode → List Char → Option (POut × List Char)
  | 0, _, _ => none
  | fuel + 1, PMode.pv, input =>
    let s := skipWs input
    match s with
    | [] => none
    | c :: rest =>
      if c = quoteC then
        match scanStr [] rest with
        | some (str, r) => some (POut.val (JVal.str str), r)
        | none => none
      else if c = lcurly then
        let s1 := skipWs rest
        match s1 with
        | c1 :: r1 =>
          if c1 = rcurly then some (POut.val (JVal.obj []), r1)
          else
            match parseStep fuel PMode.pm s1 with
            | some (POut.fields fs, r) => some (POut.val (JVal.obj fs), r)
            | _ => none
        | [] => none
      else if c = lbrack then
        let s1 := skipWs rest
        match s1 with
        | c1 :: r1 =>
          if c1 = rbrackC then some (POut.val (JVal.arr []), r1)
          else
            match parseStep fuel PMode.pe s1 with
            | some (POut.elems es, r) => some (POut.val (JVal.arr es), r)
            | _ => none
        | [] => none
      else if ['t', 'r', 'u', 'e'].isPrefixOf s then some (POut.val (JVal.bool true), s.drop 4)
      else if ['f', 'a', 'l', 's', 'e'].isPrefixOf s then some (POut.val (JVal.bool false), s.drop 5)
      else if ['n', 'u', 'l', 'l'].isPrefixOf s then some (POut.val JVal.null, s.drop 4)
      else
        match parseNum s with
        | some (raw, r) => some (POut.val (JVal.num raw), r)
        | none => none
  | fuel + 1, PMode.pm, input =>
    match skipWs input with
    | [] => none
    | c :: rest =>
      if c = quoteC then
        match scanStr [] rest with
        | none => none
        | some (key, r1) =>
          match skipWs r1 with
          | [] => none
          | c2 :: r2 =>
            if c2 = colonC then
              match parseStep fuel PMode.pv r2 with
              | some (POut.val v, r3) =>
                match skipWs r3 with
                | [] => none
                | c3 :: r4 =>
                  if c3 = commaC then
                    match parseStep fuel PMode.pm r4 with
                    | some (POut.fields kvs, r5) => some (POut.fields ((key, v) :: kvs), r5)
                    | _ => none
                  else if c3 = rcurly then some (POut.fields [(key, v)], r4)
                  else none
              | _ => none
            else none
      else none
  | fuel + 1, PMode.pe, input =>
    match parseStep fuel PMode.pv input with
    | some (POut.val v, r1) =>
      match skipWs r1 with
      | [] => none
      | c :: r2 =>
        if c = commaC then
          match parseStep fuel PMode.pe r2 with
          | some (POut.elems es, r3) => some (POut.elems (v :: es), r3)
          | _ => none
        else if c = rbrackC then some (POut.elems [v], r2)
        else none
    | _ => none

/-- Parse one JSON value from the input. -/
def parseVal (fuel : Nat) (s : List Char) : Option (JVal × List Char) :=
  match parseStep fuel PMode.pv s with
  | some (POut.val v, r) => some (v, r)
  | _ => none

/-- Parse a complete JSON document, rejecting trailing non-whitespace
(model of `json.Unmarshal`'s syntactic phase). -/
def parseTop (s : String) : Option JVal :=
  match parseVal (s.data.length + 1) s.data with
  | some (v, rest) => if skipWs rest = [] then some v else none
  | none => none

/-- Parse the first JSON value of a stream, allowing trailing data
(model of `json.Decoder.Decode`'s syntactic phase). -/
def parseFirst (s : String) : Option JVal :=
  (parseVal (s.data.length + 1) s.data).map (fun p => p.1)

/-- Insert a key/value pair into an association list, overwriting an existing
binding (Go map insertion: later duplicate object keys win). -/
def putKV : List (String × JVal) → String → JVal → List (String × JVal)
  | [], k, v => [(k, v)]
  | (k0, v0) :: t, k, v =>
    if k0 = k then (k0, v) :: t else (k0, v0) :: putKV t k v

/-- Turn parsed object fields into a map (association list with unique
keys). -/
def mapOf (fs : List (String × JVal)) : List (String × JVal) :=
  fs.foldl (fun acc kv => putKV acc kv.1 kv.2) []

/-- Lookup in the map model. -/
def mapGet (m : List (String × JVal)) (k : String) : Option JVal :=
  (m.find? (fun p => p.1 == k)).map (fun p => p.2)

/-- Model of `json.Unmarshal(body, &data)` for `data : map[string]interface`:
succeeds on a JSON object (and on `null`, which leaves the map nil, i.e.
empty); fails on any other top-level value and on syntax errors. -/
def unmarshalMap (s : String) : Option (List (String × JVal)) :=
  match parseTop s with
  | some (JVal.obj fs) => some (mapOf fs)
  | some JVal.null => some []
  | _ => none

/-! ### Title extraction (`main.go`) -/

/-- Model of `extractHTMLTitle` (`main.go`): find `<title>` in the lowered
text, then the matching `</title>` (case-sensitively, as in the source) in
the original text after the opening tag. -/
def extractHTMLTitle (html : String) : String :=
  match goIndex (lowerStr html).data "<title>".data with
  | none => "No HTML title found"
  | some i =>
    let titleStart := i + 7
    match goIndex (html.data.drop titleStart) "</title>".data with
    | none => "Malformed HTML title"
    | some titleEnd =>
      let title := goTrimSpace ⟨(html.data.drop titleStart).take titleEnd⟩
      if title = "" then "Empty HTML title" else title

/-- The `titleFields` probe list of `extractJSONTitle`. -/
def titleFields : List String := ["title", "name", "login", "message", "description"]

/-- The first `for` loop of `extractJSONTitle`: probe the fields in order and
return the first non-empty string value. -/
def probeLoop (data : List (String × JVal)) : List String → Option String
  | [] => none
  | f :: fs =>
    match mapGet data f with
    | some (JVal.str v) => if v ≠ "" then some v else probeLoop data fs
    | _ => probeLoop data fs

/-- The second `for` loop of `extractJSONTitle`: scan the (sorted) keys and
return `"key: value"` for the first string value that is shorter than 100
bytes and non-empty. -/
def scanLoop (data : List (String × JVal)) : List String → Option String
  | [] => none
  | k :: ks =>
    match mapGet data k with
    | some (JVal.str v) =>
      if v.utf8ByteSize < 100 ∧ v ≠ "" then some (k ++ ": " ++ v)
      else scanLoop data ks
    | _ => scanLoop data ks

/-- Model of `extractJSONTitle` (`main.go`). -/
def extractJSONTitle (jsonStr : String) : String :=
  match unmarshalMap jsonStr with
  | none => "Invalid JSON"
  | some data =>
    match probeLoop data titleFields with
    | some v => v
    | none =>
      match scanLoop data (sortStrs (data.map (fun p => p.1))) with
      | some r => r
      | none => "JSON response (no title field)"

/-- Model of `extractTitle` (`main.go`): JSON when the content type contains
`application/json` (case-sensitively) or the body starts with a curly brace
or a square bracket; HTML otherwise. -/
def extractTitle (content contentType : String) : String :=
  if goContains contentType "application/json" ||
      ([lcurly].isPrefixOf content.data || [lbrack].isPrefixOf content.data) then
    extractJSONTitle content
  else
    extractHTMLTitle content

/-! #### Specification-side rendering of the JSON-title contract

These definitions follow the words of the specification (probe the listed
fields in order for the first non-empty string value; otherwise scan the keys
in lexicographic order) and are compared with the code-derived functions
above in the refinement theorem for the title extractor. -/

/-- Specification reading of the probe step: the first of the listed fields
carrying a non-empty string value. -/
def specProbe (data : List (String × JVal)) : Option String :=
  (titleFields.filterMap (fun f =>
    match mapGet data f with
    | some (JVal.str v) => if v ≠ "" then some v else none
    | _ => none)).head?

/-- Specification reading of the scan step, amended with the non-emptiness
requirement the code imposes: the first key in lexicographic order whose
value is a non-empty string of byte length below 100. -/
def specScan (data : List (String × JVal)) : Option String :=
  ((sortStrs (data.map (fun p => p.1))).filterMap (fun k =>
    match mapGet data k with
    | some (JVal.str v) =>
      if v.utf8ByteSize < 100 ∧ v ≠ "" then some (k ++ ": " ++ v) else none
    | _ => none)).head?

/-- Specification reading of the whole JSON-title contract. -/
def specExtractJSONTitle (s : String) : String :=
  match unmarshalMap s with
  | none => "Invalid JSON"
  | some data =>
    match specProbe data with
    | some v => v
    | none =>
      match specScan data with
      | some r => r
      | none => "JSON response (no title field)"

/-! ### Circuit breaker (`circuit_breaker.go`)

Time is modelled as `Nat` ticks; the adjacent `time.Now()` calls inside one
locked section (`recordFailure` and the transition it triggers) are modelled
as the same tick. -/

/-- The three breaker states. -/
inductive CBState where
  | closed
  | opened
  | halfOpen
deriving DecidableEq, Repr

/-- The `CircuitBreaker` struct: configuration, state, counters and the
monotone totals. -/
structure CB where
  failureThreshold : Nat
  resetTimeout : Nat
  halfOpenLimit : Nat
  state : CBState
  failureCount : Nat
  successCount : Nat
  lastFailureTime : Nat
  lastStateChange : Nat
  totalRequests : Nat
  totalFailures : Nat
  totalSuccesses : Nat
deriving DecidableEq, Repr

/-- Model of `NewCircuitBreakerWithConfig` (created at tick `now`). -/
def newCircuitBreakerWithConfig (failureThreshold resetTimeout halfOpenLimit now : Nat) : CB :=
  { failureThreshold := failureThreshold
    resetTimeout := resetTimeout
    halfOpenLimit := halfOpenLimit
    state := CBState.closed
    failureCount := 0
    successCount := 0
    lastFailureTime := 0
    lastStateChange := now
    totalRequests := 0
    totalFailures := 0
    totalSuccesses := 0 }

/-- Model of `NewCircuitBreaker`: `halfOpenLimit` defaults to 1. -/
def newCircuitBreaker (failureThreshold resetTimeout now : Nat) : CB :=
  newCircuitBreakerWithConfig failureThreshold resetTimeout 1 now

/-- Model of `transitionToOpen`. -/
def transitionToOpen (now : Nat) (cb : CB) : CB :=
  if cb.state ≠ CBState.opened then
    { cb with state := CBState.opened, lastStateChange := now,
              failureCount := 0, successCount := 0 }
  else cb

/-- Model of `transitionToHalfOpen`. -/
def transitionToHalfOpen (now : Nat) (cb : CB) : CB :=
  if cb.state ≠ CBState.halfOpen then
    { cb with state := CBState.halfOpen, lastStateChange := now,
              failureCount := 0, successCount := 0 }
  else cb

/-- Model of `transitionToClosed`. -/
def transitionToClosed (now : Nat) (cb : CB) : CB :=
  if cb.state ≠ CBState.closed then
    { cb with state := CBState.closed, lastStateChange := now,
              failureCount := 0, successCount := 0 }
  else cb

/-- Model of `canExecute`: lazily move an expired `open` breaker to
`half_open`, then decide admission.  Returns the decision and the (possibly
transitioned) breaker. -/
def canExecuteStep (now : Nat) (cb : CB) : Bool × CB :=
  let cb1 :=
    if cb.state = CBState.opened ∧ now - cb.lastFailureTime ≥ cb.resetTimeout then
      transitionToHalfOpen now cb
    else cb
  match cb1.state with
  | CBState.closed => (true, cb1)
  | CBState.opened => (false, cb1)
  | CBState.halfOpen => (decide (cb1.successCount < cb1.halfOpenLimit), cb1)

/-- Model of `recordRequest`. -/
def recordRequest (cb : CB) : CB :=
  { cb with totalRequests := cb.totalRequests + 1 }

/-- Model of `recordFailure`. -/
def recordFailure (now : Nat) (cb : CB) : CB :=
  let cb1 := { cb with totalFailures := cb.totalFailures + 1,
                       failureCount := cb.failureCount + 1,
                       lastFailureTime := now }
  match cb1.state with
  | CBState.closed =>
    if cb1.failureCount ≥ cb1.failureThreshold then transitionToOpen now cb1 else cb1
  | CBState.halfOpen => transitionToOpen now cb1
  | CBState.opened => cb1

/-- Model of `recordSuccess`. -/
def recordSuccess (now : Nat) (cb : CB) : CB :=
  let cb1 := { cb with totalSuccesses := cb.totalSuccesses + 1,
                       successCount := cb.successCount + 1 }
  if cb1.state = CBState.halfOpen ∧ cb1.successCount ≥ cb1.halfOpenLimit then
    transitionToClosed now cb1
  else cb1

/-- The payload a successful strategy invocation writes into the scraped
data (`result.StatusCode`, `len(result.Body)`, `result.Title`,
`result.NextURL`). -/
structure StratOk where
  statusCode : Nat
  size : Nat
  title : String
  nextURL : String
deriving DecidableEq, Repr

/-- Outcome of one strategy invocation: success with a payload, or a
`ScraperError` whose retryability flag is `retryable`. -/
inductive StratRes where
  | ok (p : StratOk)
  | err (retryable : Bool)
deriving DecidableEq, Repr

/-- An error as seen by the retry loop: either the breaker's rejection
(`CircuitBreakerError`) or a `ScraperError` with its retryability flag. -/
inductive LoopErr where
  | breaker
  | scraper (retryable : Bool)
deriving DecidableEq, Repr

/-- Result of one `cb.Execute(fn)` call: whether `fn` (the strategy) was
invoked, the returned error if any, the success payload if any, and the
updated breaker. -/
structure ExecOut where
  invoked : Bool
  err : Option LoopErr
  data : Option StratOk
  cb : CB
deriving DecidableEq, Repr

/-- Model of `CircuitBreaker.Execute` at tick `now`, where the strategy
invocation (if admitted) would produce `res`. -/
def cbExecute (now : Nat) (res : StratRes) (cb : CB) : ExecOut :=
  match canExecuteStep now cb with
  | (false, cb1) => { invoked := false, err := some LoopErr.breaker, data := none, cb := cb1 }
  | (true, cb1) =>
    let cb2 := recordRequest cb1
    match res with
    | StratRes.ok p =>
      { invoked := true, err := none, data := some p, cb := recordSuccess now cb2 }
    | StratRes.err r =>
      { invoked := true, err := some (LoopErr.scraper r), data := none, cb := recordFailure now cb2 }

/-- One externally triggered breaker interaction: an `Execute` call at tick
`now` whose admitted strategy outcome would be `res`. -/
structure CBOp where
  now : Nat
  res : StratRes

/-- Run a sequence of `Execute` calls against a breaker. -/
def runOps (cb : CB) (ops : List CBOp) : CB :=
  ops.foldl (fun c op => (cbExecute op.now op.res c).cb) cb

/-! ### Retry loop (`Scraper.doScrape`, `main.go`) -/

/-- Observable outcome of the retry loop of `doScrape`: how many times the
strategy was invoked, the sleeps performed (in order), how many loop
iterations ran, the final `lastErr`, the success payload if any, and the
final breaker. -/
structure LoopOut where
  stratCalls : Nat
  sleeps : List Nat
  attemptsUsed : Nat
  err : Option LoopErr
  data : Option StratOk
  cb : CB
deriving DecidableEq, Repr

/-- One iteration bookkeeping helper: prepend the current iteration's
contribution to a recursive result. -/
def consIter (calls : Nat) (sleep : Option Nat) (rest : LoopOut) : LoopOut :=
  { rest with
    stratCalls := calls + rest.stratCalls
    sleeps := match sleep with | some d => d :: rest.sleeps | none => rest.sleeps
    attemptsUsed := 1 + rest.attemptsUsed }

/-- The retry loop of `doScrape`.  `remaining` counts the iterations still
allowed including the current one (so the loop guard `attempt ≤
retry_attempts` is `remaining > 0`, and the retry guard `attempt <
retry_attempts` is `remaining > 1`).  `attempt` is the 1-based attempt
number, `strat attempt` the outcome the strategy would produce on that
attempt, and `tm attempt` the clock tick of that attempt. -/
def retryLoopAux (delay : Nat) (strat : Nat → StratRes) (tm : Nat → Nat) :
    Nat → Nat → CB → Option LoopErr → LoopOut
  | 0, _, cb, lastErr =>
    { stratCalls := 0, sleeps := [], attemptsUsed := 0, err := lastErr, data := none, cb := cb }
  | remaining + 1, attempt, cb, _ =>
    let e := cbExecute (tm attempt) (strat attempt) cb
    let calls := if e.invoked then 1 else 0
    match e.err with
    | none =>
      -- success: break with lastErr = nil and the payload
      { stratCalls := calls, sleeps := [], attemptsUsed := 1,
        err := none, data := e.data, cb := e.cb }
    | some LoopErr.breaker =>
      -- circuit breaker open: break immediately
      { stratCalls := calls, sleeps := [], attemptsUsed := 1,
        err := some LoopErr.breaker, data := none, cb := e.cb }
    | some (LoopErr.scraper r) =>
      if r ∧ 0 < remaining then
        -- retryable and attempt < retry_attempts: sleep delay×attempt, continue
        consIter calls (some (delay * attempt))
          (retryLoopAux delay strat tm remaining (attempt + 1) e.cb (some (LoopErr.scraper r)))
      else
        -- non-retryable or attempts exhausted: break
        { stratCalls := calls, sleeps := [], attemptsUsed := 1,
          err := some (LoopErr.scraper r), data := none, cb := e.cb }

/-- The retry loop of `doScrape`, started at attempt 1. -/
def retryLoop (retryAttempts delay : Nat) (strat : Nat → StratRes) (tm : Nat → Nat)
    (cb : CB) : LoopOut :=
  retryLoopAux delay strat tm retryAttempts 1 cb none

/-- An error recorded in a `Result`: URL validation failure, breaker
rejection, or a scraper error. -/
inductive ScrapeErr where
  | validation (msg : String)
  | breakerOpen
  | scraper (retryable : Bool)
deriving DecidableEq, Repr

/-- The `ScrapedData` record (`main.go`), with the error field modelled as an
option (the Go empty string meaning absence). -/
structure SD where
  url : String
  title : String
  status : Nat
  size : Nat
  error : Option ScrapeErr
  scraped : Nat
  nextURL : String
deriving DecidableEq, Repr

/-- Model of `Scraper.doScrape` for one URL.  `validate` models
`ValidateURL` (`none` = valid), `domainOf` models URL host extraction,
`cbOf` gives the breaker state observed for a host, `strat u n` the strategy
outcome for URL `u` on attempt `n`, and `tm u n` the tick of that attempt. -/
def doScrapeSD (validate : String → Option String) (domainOf : String → String)
    (cbOf : String → CB) (retryAttempts delay : Nat)
    (strat : String → Nat → StratRes) (tm : String → Nat → Nat)
    (now : Nat) (u : String) : SD :=
  match validate u with
  | some msg =>
    { url := u, title := "", status := 0, size := 0,
      error := some (ScrapeErr.validation msg), scraped := now, nextURL := "" }
  | none =>
    let out := retryLoop retryAttempts delay (strat u) (tm u) (cbOf (domainOf u))
    { url := u
      title := match out.data with | some p => p.title | none => ""
      status := match out.data with | some p => p.statusCode | none => 0
      size := match out.data with | some p => p.size | none => 0
      error := match out.err with
        | some LoopErr.breaker => some ScrapeErr.breakerOpen
        | some (LoopErr.scraper r) => some (ScrapeErr.scraper r)
        | none => none
      scraped := now
      nextURL := match out.data with | some p => p.nextURL | none => "" }

/-! ### Batch executor (`Scraper.ScrapeURLs`) and pagination executor
(`Scraper.ScrapeSite`) -/

/-- Model of `ScrapeURLs`: one fetch per submitted URL, results collected.
The goroutine fan-out delivers results in nondeterministic order; this model
fixes the submission-order linearization (the claims proved about it are
order-agnostic). -/
def scrapeURLs (fetch : String → SD) (urls : List String) : List SD :=
  urls.map fetch

/-- The worklist loop of `ScrapeSite`: pop a URL, skip it if already
scraped, otherwise fetch it, append the result, and enqueue the returned
`next_url` when it is non-empty and the page bound is not yet reached. -/
def scrapeSiteLoop (fetch : String → SD) (maxPages : Nat) :
    List String → List String → Nat → List SD → List SD
  | [], _, _, acc => acc
  | u :: rest, visited, pageCount, acc =>
    if _h : pageCount < maxPages then
      if visited.contains u then
        scrapeSiteLoop fetch maxPages rest visited pageCount acc
      else
        let r := fetch u
        let wl := if r.nextURL ≠ "" ∧ pageCount + 1 < maxPages then rest ++ [r.nextURL] else rest
        scrapeSiteLoop fetch maxPages wl (u :: visited) (pageCount + 1) (acc ++ [r])
    else acc
termination_by wl _ pc => (maxPages - pc, wl.length)
decreasing_by
  · exact Prod.Lex.right _ (by simp)
  · exact Prod.Lex.left _ _ (by omega)

/-- Model of `ScrapeSite`: run the worklist loop from the seed URL. -/
def scrapeSite (fetch : String → SD) (maxPages : Nat) (startURL : String) : List SD :=
  scrapeSiteLoop fetch maxPages [startURL] [] 0 []

/-! ### Jobs and the HTTP API (`api.go`) -/

/-- The `ScrapeRequest` struct. -/
structure ScrapeRequest where
  urls : List String
  siteURL : String
deriving DecidableEq, Repr

/-- The `ScrapingJob` record. -/
structure Job where
  id : String
  status : String
  request : ScrapeRequest
  results : List SD
  error : String
  createdAt : Nat
  startedAt : Option Nat
  completedAt : Option Nat
  progress : Nat
deriving DecidableEq, Repr

/-- Model of `executeScrapingJob`: mark the job running, run pagination mode
when `site_url` is non-empty and batch mode otherwise, then record the
results and mark the job completed. -/
def executeScrapingJob (scrapeUrlsF : List String → List SD)
    (scrapeSiteF : String → List SD) (now1 now2 : Nat) (job : Job) : Job :=
  let job1 := { job with status := "running", startedAt := some now1 }
  let results :=
    if job.request.siteURL ≠ "" then scrapeSiteF job.request.siteURL
    else scrapeUrlsF job.request.urls
  { job1 with results := results, progress := 100,
              completedAt := some now2, status := "completed" }

/-- Decode a JSON array into `[]string` the way `encoding/json` does:
string elements keep their value, a JSON `null` element is a no-op on the
already-zeroed slot (so it decodes to the empty string with no error), and
any other element type is a decode (type) error. -/
def jvalToStrings : List JVal → Option (List String)
  | [] => some []
  | JVal.str s :: t =>
    match jvalToStrings t with
    | some r => some (s :: r)
    | none => none
  | JVal.null :: t =>
    match jvalToStrings t with
    | some r => some ("" :: r)
    | none => none
  | _ :: _ => none

/-- Apply one object member to the request being decoded, the way
`encoding/json` fills a struct: the key is matched against the `urls` /
`site_url` field tags case-insensitively (ASCII fold; exact-match preference
cannot matter here because the two tags differ beyond case), unknown keys
are skipped whatever their value, a JSON `null` sets a slice to nil and is a
no-op on a string, and a value of the wrong type is a decode error
(`none`). -/
def decodeField (req : ScrapeRequest) (k : String) (v : JVal) : Option ScrapeRequest :=
  if lowerStr k = "urls" then
    match v with
    | JVal.null => some { req with urls := [] }
    | JVal.arr es =>
      match jvalToStrings es with
      | some us => some { req with urls := us }
      | none => none
    | _ => none
  else if lowerStr k = "site_url" then
    match v with
    | JVal.null => some req
    | JVal.str s => some { req with siteURL := s }
    | _ => none
  else some req

/-- Decode the request body of `POST /scrape` (model of
`json.NewDecoder(r.Body).Decode(&req)`): read the first JSON value of the
stream (trailing data is ignored); it must be an object (or `null`, which
leaves the struct at its zero values).  Object members are processed in
document order — duplicate keys each overwrite the field in turn — and
`Decode` reports an error as soon as any member has mismatched its field's
type. -/
def decodeScrapeRequest (body : String) : Option ScrapeRequest :=
  match parseFirst body with
  | some (JVal.obj fs) =>
    fs.foldl
      (fun acc kv =>
        match acc with
        | none => none
        | some req => decodeField req kv.1 kv.2)
      (some { urls := [], siteURL := "" })
  | some JVal.null => some { urls := [], siteURL := "" }
  | _ => none

/-- Response of the `HandleScrape` handler: an `http.Error` with a status
code, or the `202 Accepted` JSON payload. -/
inductive HandlerResp where
  | httpError (code : Nat) (msg : String)
  | accepted (jobID : String) (status : String) (message : String)
deriving DecidableEq, Repr

/-- HTTP status code of a handler response (`202` for the accepted payload). -/
def respCode : HandlerResp → Nat
  | HandlerResp.httpError c _ => c
  | HandlerResp.accepted _ _ _ => 202

/-- Model of `APIHandler.HandleScrape`: method check, JSON decode, the
"at least one of `urls` / `site_url`" validation, persisting the job
(`saveOk` tells whether `storage.SaveJob` succeeds), then the `202`
response carrying the fresh job id and status `accepted`. -/
def handleScrape (method : String) (body : String) (saveOk : Bool)
    (newID : String) : HandlerResp :=
  if method ≠ "POST" then HandlerResp.httpError 405 "Method not allowed"
  else
    match decodeScrapeRequest body with
    | none => HandlerResp.httpError 400 "Invalid request body"
    | some req =>
      if req.siteURL = "" ∧ req.urls = [] then
        HandlerResp.httpError 400 "No URLs provided"
      else if saveOk then
        HandlerResp.accepted newID "accepted" "Scraping job created successfully"
      else HandlerResp.httpError 500 "Failed to save job"

/-- The job record `HandleScrape` persists before returning. -/
def newPendingJob (newID : String) (req : ScrapeRequest) (now : Nat) : Job :=
  { id := newID, status := "pending", request := req, results := [],
    error := "", createdAt := now, startedAt := none, completedAt := none,
    progress := 0 }

/-- A concrete breaker sitting in the `open` state (opened at tick 10 with a
30-tick reset timeout), used to instantiate theorems about open-state
admission. -/
def cbOpenExample : CB :=
  { failureThreshold := 2, resetTimeout := 30, halfOpenLimit := 1,
    state := CBState.opened, failureCount := 0, successCount := 0,
    lastFailureTime := 10, lastStateChange := 10,
    totalRequests := 5, totalFailures := 2, totalSuccesses := 3 }

/-! ## Theorems -/

/-! ### Helper lemmas on the title extractor -/

/-- The probe loop agrees with the first-hit-of-`filterMap` reading. -/
theorem probeLoop_eq_filterMap (data : List (String × JVal)) :
    ∀ fs : List String,
      probeLoop data fs = (fs.filterMap (fun f =>
        match mapGet data f with
        | some (JVal.str v) => if v ≠ "" then some v else none
        | _ => none)).head? := by
  intro fs
  induction fs with
  | nil => rfl
  | cons f fs ih =>
    simp only [probeLoop, List.filterMap_cons]
    cases hv : mapGet data f with
    | none => simpa using ih
    | some v =>
      cases v with
      | str s =>
        by_cases hs : s ≠ ""
        · simp [hs]
        · simpa [hs] using ih
      | null => simpa using ih
      | bool b => simpa using ih
      | num raw => simpa using ih
      | arr es => simpa using ih
      | obj gs => simpa using ih

/-- The scan loop agrees with the first-hit-of-`filterMap` reading. -/
theorem scanLoop_eq_filterMap (data : List (String × JVal)) :
    ∀ ks : List String,
      scanLoop data ks = (ks.filterMap (fun k =>
        match mapGet data k with
        | some (JVal.str v) =>
          if v.utf8ByteSize < 100 ∧ v ≠ "" then some (k ++ ": " ++ v) else none
        | _ => none)).head? := by
  intro ks
  induction ks with
  | nil => rfl
  | cons k ks ih =>
    simp only [scanLoop, List.filterMap_cons]
    cases hv : mapGet data k with
    | none => simpa using ih
    | some v =>
      cases v with
      | str s =>
        by_cases hs : s.utf8ByteSize < 100 ∧ s ≠ ""
        · simp [hs]
        · simpa [hs] using ih
      | null => simpa using ih
      | bool b => simpa using ih
      | num raw => simpa using ih
      | arr es => simpa using ih
      | obj gs => simpa using ih

/-- A probe hit is a non-empty string. -/
theorem probeLoop_ne_empty (data : List (String × JVal)) :
    ∀ fs v, probeLoop data fs = some v → v ≠ "" := by
  intro fs
  induction fs with
  | nil => intro v h; simp [probeLoop] at h
  | cons f fs ih =>
    intro v h
    simp only [probeLoop] at h
    split at h
    · split at h
      · next hs => cases h; exact hs
      · exact ih v h
    · exact ih v h

/-- A scan hit is a non-empty string (it contains the `": "` separator). -/
theorem scanLoop_ne_empty (data : List (String × JVal)) :
    ∀ ks r, scanLoop data ks = some r → r ≠ "" := by
  intro ks
  induction ks with
  | nil => intro r h; simp [scanLoop] at h
  | cons k ks ih =>
    intro r h
    simp only [scanLoop] at h
    split at h
    · split at h
      · cases h
        intro he
        have h2 := congrArg String.data he
        simp [String.data_append] at h2
      · exact ih r h
    · exact ih r h

/-- The JSON title is never the empty string. -/
theorem extractJSONTitle_ne_empty (s : String) : extractJSONTitle s ≠ "" := by
  unfold extractJSONTitle
  split
  · decide
  · split
    · next v hp => exact probeLoop_ne_empty _ titleFields v hp
    · split
      · next r hs => exact scanLoop_ne_empty _ _ r hs
      · decide

/-- The HTML title is never the empty string. -/
theorem extractHTMLTitle_ne_empty (html : String) : extractHTMLTitle html ≠ "" := by
  unfold extractHTMLTitle
  split
  · decide
  · dsimp only
    split
    · decide
    · split
      · decide
      · next h => exact h

/-! ### C4 — error retryability classification -/

/-- C4 counterexample: a DNS-failure transport error (Go text
`no such host`) matches none of the retryable patterns of
`isRetryableError`, so it is classified NOT retryable, contradicting the
claim that DNS failures are retryable. -/
theorem C4_dns_cex :
    isRetryableError
      "Get https://missing.example: dial tcp: lookup missing.example: no such host" = false := by
  rfl

/-- C4 (amended): an HTTP status code is retryable iff it is one of
408, 429, 500, 502, 503, 504; a transport error whose text shows connection
refused, connection reset, timeout, EOF, no route to host, network
unreachable or broken pipe is classified retryable; DNS failures
(`no such host`) are NOT classified retryable. -/
theorem C4_retryability_amended :
    (∀ code : Nat, isRetryableStatusCode code = true ↔
      (code = 408 ∨ code = 429 ∨ code = 500 ∨ code = 502 ∨ code = 503 ∨ code = 504))
    ∧ (∀ msg : String,
        (containsCI msg "timeout" = true ∨ containsCI msg "connection refused" = true ∨
         containsCI msg "no route to host" = true ∨
         containsCI msg "network is unreachable" = true ∨
         containsCI msg "connection reset" = true ∨
         containsCI msg "broken pipe" = true ∨
         containsCI msg "EOF" = true) → isRetryableError msg = true)
    ∧ isRetryableError "dial tcp: lookup missing.example: no such host" = false := by
  refine ⟨?_, ?_, by rfl⟩
  · intro code
    simp only [isRetryableStatusCode, Bool.or_eq_true, beq_iff_eq]
    tauto
  · intro msg h
    simp only [isRetryableError, retryablePatterns, List.any_cons, List.any_nil,
      Bool.or_eq_true]
    rcases h with h | h | h | h | h | h | h <;> simp [h]

/-- Witness for the amended C4 theorem: a connection-refused message is
classified retryable. -/
theorem C4_retryability_amended_witness :
    isRetryableError "dial tcp 127.0.0.1:80: connect: connection refused" = true :=
  C4_retryability_amended.2.1 "dial tcp 127.0.0.1:80: connect: connection refused"
    (Or.inr (Or.inl (by rfl)))

/-! ### C7 — JSON title extraction -/

/-- C7 counterexample: for the body carrying a single key `a` with the empty
string as value, the claimed scan behavior ("return `key: value` for the
first string value of length < 100") would produce `"a: "`, but the code
additionally requires a non-empty value and falls through to
`"JSON response (no title field)"`. -/
theorem C7_scan_cex :
    extractTitle "\x7b\"a\":\"\"\x7d" "" = "JSON response (no title field)" ∧
    extractTitle "\x7b\"a\":\"\"\x7d" "" ≠ "a: " := by
  exact ⟨by rfl, by decide⟩

/-- C7 (amended): the title extractor takes the JSON path whenever
`content_type` contains `application/json` or the body starts with a curly
brace or square bracket; on that path it behaves exactly like the
specification reading — probe `title, name, login, message, description` in
order for the first non-empty string value, otherwise scan the keys in
lexicographic order for the first NON-EMPTY string value of byte length
below 100 and return `"key: value"`, with `"Invalid JSON"` on parse failure
(including a top-level array) and `"JSON response (no title field)"` when
nothing is found. -/
theorem C7_json_title_amended :
    (∀ content contentType : String,
      (goContains contentType "application/json" = true ∨
       [lcurly].isPrefixOf content.data = true ∨ [lbrack].isPrefixOf content.data = true) →
      extractTitle content contentType = extractJSONTitle content)
    ∧ (∀ s : String, extractJSONTitle s = specExtractJSONTitle s)
    ∧ extractTitle "[\x7b\"title\":\"x\"\x7d]" "application/json" = "Invalid JSON"
    ∧ extractTitle "\x7b\x7d" "application/json" = "JSON response (no title field)" := by
  refine ⟨?_, ?_, by rfl, by rfl⟩
  · intro c ct h
    have hb : (goContains ct "application/json" ||
        ([lcurly].isPrefixOf c.data || [lbrack].isPrefixOf c.data)) = true := by
      rcases h with h | h | h <;> simp [h]
    unfold extractTitle
    rw [if_pos hb]
  · intro s
    unfold extractJSONTitle specExtractJSONTitle specProbe specScan
    cases hm : unmarshalMap s with
    | none => rfl
    | some data =>
      dsimp only
      rw [probeLoop_eq_filterMap, scanLoop_eq_filterMap]

/-- Witness for the amended C7 theorem: a JSON body with a plain-text
content type is routed to the JSON extractor because it starts with a curly
brace. -/
theorem C7_json_title_amended_witness :
    extractTitle "\x7b\"title\":\"T\"\x7d" "text/plain" =
      extractJSONTitle "\x7b\"title\":\"T\"\x7d" :=
  C7_json_title_amended.1 "\x7b\"title\":\"T\"\x7d" "text/plain"
    (Or.inr (Or.inl (by rfl)))

/-! ### C8 — title extractor: idempotence and non-emptiness -/

/-- C8 counterexample: feeding the extractor its own output does not return
that output.  On `<title>a</title>` the extractor yields `"a"`, and on
`"a"` it yields `"No HTML title found"`. -/
theorem C8_idempotence_cex :
    extractTitle (extractTitle "<title>a</title>" "") "" ≠
      extractTitle "<title>a</title>" "" := by
  decide

/-- C8 (amended): the title extractor never returns the empty string; it is
NOT idempotent on its output. -/
theorem C8_nonempty_amended :
    ∀ content contentType : String, extractTitle content contentType ≠ "" := by
  intro c ct
  unfold extractTitle
  split
  · exact extractJSONTitle_ne_empty c
  · exact extractHTMLTitle_ne_empty c

/-! ### Retry loop bookkeeping -/

/-- Bounds and backoff shape of the retry loop: the strategy is invoked at
most once per allowed iteration, the sleeps are exactly
`delay×attempt, delay×(attempt+1), …`, there is at least one iteration
without a sleep when any iteration is allowed, and the number of iterations
is bounded by the allowance. -/
theorem retryLoopAux_bounds (delay : Nat) (strat : Nat → StratRes) (tm : Nat → Nat) :
    ∀ (remaining attempt : Nat) (cb : CB) (e0 : Option LoopErr),
      (retryLoopAux delay strat tm remaining attempt cb e0).stratCalls ≤ remaining ∧
      (retryLoopAux delay strat tm remaining attempt cb e0).sleeps =
        (List.range' attempt
          (retryLoopAux delay strat tm remaining attempt cb e0).sleeps.length).map
          (fun n => delay * n) ∧
      (0 < remaining →
        (retryLoopAux delay strat tm remaining attempt cb e0).sleeps.length < remaining) ∧
      (retryLoopAux delay strat tm remaining attempt cb e0).attemptsUsed ≤ remaining := by
  intro remaining
  induction remaining with
  | zero =>
    intro attempt cb e0
    simp [retryLoopAux]
  | succ rem ih =>
    intro attempt cb e0
    simp only [retryLoopAux]
    split
    · simp
      split <;> omega
    · simp
      split <;> omega
    · next r heq =>
      split
      · next hcond =>
        have ihr := ih (attempt + 1)
          (cbExecute (tm attempt) (strat attempt) cb).cb (some (LoopErr.scraper r))
        simp only [consIter]
        refine ⟨?_, ?_, ?_, ?_⟩
        · have h1 : (if (cbExecute (tm attempt) (strat attempt) cb).invoked
              then 1 else 0) ≤ 1 := by split <;> omega
          omega
        · simp only [List.length_cons, List.range'_succ, List.map_cons]
          rw [← ihr.2.1]
        · have h0 := hcond.2
          have h2 := ihr.2.2.1 h0
          simp only [List.length_cons]
          omega
        · have := ihr.2.2.2
          omega
      · simp
        split <;> omega

/-- C2: for every URL the retry loop of `doScrape` invokes the strategy at
most `retry_attempts` times; the sleeps it performs are exactly
`retry_base_delay × n` for the attempt numbers `n = 1, 2, …` on which a
retryable error occurred, each with `n < retry_attempts` (linear backoff);
and with `retry_attempts = 1` and an admitting (closed) breaker exactly one
strategy call is made and no sleep occurs. -/
theorem C2_retry_controller :
    ∀ (retryAttempts delay : Nat) (strat : Nat → StratRes) (tm : Nat → Nat) (cb : CB),
      (retryLoop retryAttempts delay strat tm cb).stratCalls ≤ retryAttempts
      ∧ (retryLoop retryAttempts delay strat tm cb).sleeps =
          (List.range' 1 (retryLoop retryAttempts delay strat tm cb).sleeps.length).map
            (fun n => delay * n)
      ∧ (1 ≤ retryAttempts →
          (retryLoop retryAttempts delay strat tm cb).sleeps.length < retryAttempts)
      ∧ (retryAttempts = 1 → cb.state = CBState.closed →
          (retryLoop retryAttempts delay strat tm cb).stratCalls = 1 ∧
          (retryLoop retryAttempts delay strat tm cb).sleeps = []) := by
  intro retryAttempts delay strat tm cb
  have hb := retryLoopAux_bounds delay strat tm retryAttempts 1 cb none
  refine ⟨hb.1, hb.2.1, ?_, ?_⟩
  · intro h1
    show (retryLoopAux delay strat tm retryAttempts 1 cb none).sleeps.length < retryAttempts
    exact hb.2.2.1 (by omega)
  · intro h1 hc
    subst h1
    have hce : canExecuteStep (tm 1) cb = (true, cb) := by
      unfold canExecuteStep
      have hno : ¬(cb.state = CBState.opened ∧
          tm 1 - cb.lastFailureTime ≥ cb.resetTimeout) := by
        intro hcontra
        rw [hc] at hcontra
        exact absurd hcontra.1 (by decide)
      rw [if_neg hno]
      dsimp only
      rw [hc]
    cases hs : strat 1 with
    | ok p => simp [retryLoop, retryLoopAux, cbExecute, hce, hs]
    | err r => simp [retryLoop, retryLoopAux, cbExecute, hce, hs]

/-- Witness for C2: a single-attempt loop against a fresh breaker makes
exactly one strategy call, sleeps never, and its sleep count is below the
attempt allowance. -/
theorem C2_retry_controller_witness :
    (retryLoop 1 2 (fun _ => StratRes.err true) (fun n => n) (newCircuitBreaker 3 5 0)).stratCalls = 1
    ∧ (retryLoop 1 2 (fun _ => StratRes.err true) (fun n => n) (newCircuitBreaker 3 5 0)).sleeps = []
    ∧ (retryLoop 1 2 (fun _ => StratRes.err true) (fun n => n) (newCircuitBreaker 3 5 0)).sleeps.length < 1 :=
  ⟨((C2_retry_controller 1 2 (fun _ => StratRes.err true) (fun n => n)
      (newCircuitBreaker 3 5 0)).2.2.2 rfl rfl).1,
   ((C2_retry_controller 1 2 (fun _ => StratRes.err true) (fun n => n)
      (newCircuitBreaker 3 5 0)).2.2.2 rfl rfl).2,
   (C2_retry_controller 1 2 (fun _ => StratRes.err true) (fun n => n)
      (newCircuitBreaker 3 5 0)).2.2.1 (by decide)⟩

/-- C3: when the breaker for a URL's host is open (and its reset timeout has
not elapsed), the admission check rejects with the breaker-open error, the
strategy is never invoked, the retry loop performs exactly one iteration
(no further attempts), and the URL's result record carries the breaker-open
error. -/
theorem C3_breaker_open_aborts :
    ∀ (validate : String → Option String) (domainOf : String → String)
      (cbOf : String → CB) (retryAttempts delay : Nat)
      (strat : String → Nat → StratRes) (tm : String → Nat → Nat)
      (now : Nat) (u : String),
      1 ≤ retryAttempts →
      validate u = none →
      (cbOf (domainOf u)).state = CBState.opened →
      tm u 1 - (cbOf (domainOf u)).lastFailureTime < (cbOf (domainOf u)).resetTimeout →
      (retryLoop retryAttempts delay (strat u) (tm u) (cbOf (domainOf u))).stratCalls = 0
      ∧ (retryLoop retryAttempts delay (strat u) (tm u) (cbOf (domainOf u))).attemptsUsed = 1
      ∧ (retryLoop retryAttempts delay (strat u) (tm u) (cbOf (domainOf u))).err =
          some LoopErr.breaker
      ∧ (doScrapeSD validate domainOf cbOf retryAttempts delay strat tm now u).error =
          some ScrapeErr.breakerOpen := by
  intro validate domainOf cbOf retryAttempts delay strat tm now u h1 hval hopen htime
  obtain ⟨rem, rfl⟩ : ∃ rem, retryAttempts = rem + 1 := ⟨retryAttempts - 1, by omega⟩
  have hce : canExecuteStep (tm u 1) (cbOf (domainOf u)) = (false, cbOf (domainOf u)) := by
    unfold canExecuteStep
    have hno : ¬((cbOf (domainOf u)).state = CBState.opened ∧
        tm u 1 - (cbOf (domainOf u)).lastFailureTime ≥ (cbOf (domainOf u)).resetTimeout) := by
      intro hcontra
      omega
    rw [if_neg hno]
    dsimp only
    rw [hopen]
  have hex : cbExecute (tm u 1) (strat u 1) (cbOf (domainOf u)) =
      { invoked := false, err := some LoopErr.breaker, data := none,
        cb := cbOf (domainOf u) } := by
    unfold cbExecute
    rw [hce]
  refine ⟨?_, ?_, ?_, ?_⟩ <;>
    simp [retryLoop, retryLoopAux, hex, doScrapeSD, hval]

/-- Witness for C3: a concrete open breaker rejects a URL without any
strategy call and yields a breaker-open result. -/
theorem C3_breaker_open_aborts_witness :
    (retryLoop 3 1 ((fun _ : String => fun _ : Nat => StratRes.err true) "https://h/x")
        ((fun _ : String => fun _ : Nat => 12) "https://h/x")
        ((fun _ : String => cbOpenExample) ((fun _ : String => "h") "https://h/x"))).stratCalls = 0
    ∧ (doScrapeSD (fun _ => none) (fun _ => "h") (fun _ => cbOpenExample) 3 1
        (fun _ _ => StratRes.err true) (fun _ _ => 12) 99 "https://h/x").error =
        some ScrapeErr.breakerOpen :=
  ⟨(C3_breaker_open_aborts (fun _ => none) (fun _ => "h") (fun _ => cbOpenExample) 3 1
      (fun _ _ => StratRes.err true) (fun _ _ => 12) 99 "https://h/x"
      (by decide) rfl rfl (by decide)).1,
   (C3_breaker_open_aborts (fun _ => none) (fun _ => "h") (fun _ => cbOpenExample) 3 1
      (fun _ _ => StratRes.err true) (fun _ _ => 12) 99 "https://h/x"
      (by decide) rfl rfl (by decide)).2.2.2⟩

/-! ### Circuit breaker step lemmas -/

/-- A closed breaker admits and keeps its fields through the admission
check. -/
theorem canExecuteStep_closed (now : Nat) (cb : CB) (hc : cb.state = CBState.closed) :
    canExecuteStep now cb = (true, cb) := by
  unfold canExecuteStep
  rw [if_neg (by rw [hc]; intro hcontra; exact absurd hcontra.1 (by decide))]
  dsimp only
  rw [hc]

/-- A half-open breaker keeps its fields through the admission check, and
admits exactly while the success count is below the probe limit. -/
theorem canExecuteStep_halfOpen (now : Nat) (cb : CB) (hh : cb.state = CBState.halfOpen) :
    canExecuteStep now cb = (decide (cb.successCount < cb.halfOpenLimit), cb) := by
  unfold canExecuteStep
  rw [if_neg (by rw [hh]; intro hcontra; exact absurd hcontra.1 (by decide))]
  dsimp only
  rw [hh]

/-- In the closed state a failure opens the breaker exactly when the
incremented failure count reaches the threshold. -/
theorem closed_failure_step (now : Nat) (r : Bool) (cb : CB)
    (hc : cb.state = CBState.closed) :
    (cbExecute now (StratRes.err r) cb).cb.state = CBState.opened ↔
      cb.failureThreshold ≤ cb.failureCount + 1 := by
  unfold cbExecute
  rw [canExecuteStep_closed now cb hc]
  dsimp only
  unfold recordRequest recordFailure
  dsimp only
  rw [hc]
  dsimp only
  by_cases hge : cb.failureThreshold ≤ cb.failureCount + 1
  · rw [if_pos hge]
    unfold transitionToOpen
    rw [if_pos (by simp)]
    simp [hge]
  · rw [if_neg hge]
    simp [hge]

/-- An expired open breaker transitions to half-open on the admission
check. -/
theorem open_timeout_step (now : Nat) (cb : CB) (ho : cb.state = CBState.opened)
    (hlf : cb.lastFailureTime = cb.lastStateChange)
    (ht : cb.lastStateChange + cb.resetTimeout ≤ now) :
    (canExecuteStep now cb).2.state = CBState.halfOpen := by
  unfold canExecuteStep
  rw [if_pos ⟨ho, by omega⟩]
  unfold transitionToHalfOpen
  rw [if_pos (by rw [ho]; decide)]

/-- In the half-open state (while admitted) a success closes the breaker
exactly when the incremented success count reaches the probe limit. -/
theorem halfopen_success_step (now : Nat) (p : StratOk) (cb : CB)
    (hh : cb.state = CBState.halfOpen) (hadm : cb.successCount < cb.halfOpenLimit) :
    (cbExecute now (StratRes.ok p) cb).cb.state = CBState.closed ↔
      cb.halfOpenLimit ≤ cb.successCount + 1 := by
  unfold cbExecute
  rw [canExecuteStep_halfOpen now cb hh]
  dsimp only
  rw [decide_eq_true hadm]
  dsimp only
  unfold recordRequest recordSuccess
  dsimp only
  by_cases hge : cb.halfOpenLimit ≤ cb.successCount + 1
  · rw [if_pos (by rw [hh]; exact ⟨rfl, hge⟩)]
    unfold transitionToClosed
    rw [if_pos (by rw [hh]; decide)]
    simp [hge]
  · rw [if_neg (by intro hcontra; exact hge hcontra.2)]
    simp only [hh]
    simp [hge]

/-- In the half-open state (while admitted) any failure reopens the
breaker. -/
theorem halfopen_failure_step (now : Nat) (r : Bool) (cb : CB)
    (hh : cb.state = CBState.halfOpen) (hadm : cb.successCount < cb.halfOpenLimit) :
    (cbExecute now (StratRes.err r) cb).cb.state = CBState.opened := by
  unfold cbExecute
  rw [canExecuteStep_halfOpen now cb hh]
  dsimp only
  rw [decide_eq_true hadm]
  dsimp only
  unfold recordRequest recordFailure
  dsimp only
  rw [hh]
  dsimp only
  unfold transitionToOpen
  rw [if_pos (by simp)]

/-! ### Circuit breaker invariant: in the open state the last failure time
equals the last transition time (the two are written at the same tick by the
failure that opens the breaker, and the open state records no further
failures). -/

/-- The admission check preserves the open-state time invariant. -/
theorem canExecuteStep_wfInv (now : Nat) (cb : CB)
    (h : cb.state = CBState.opened → cb.lastFailureTime = cb.lastStateChange) :
    (canExecuteStep now cb).2.state = CBState.opened →
      (canExecuteStep now cb).2.lastFailureTime = (canExecuteStep now cb).2.lastStateChange := by
  unfold canExecuteStep
  split
  · next hcond =>
    unfold transitionToHalfOpen
    rw [if_pos (by rw [hcond.1]; decide)]
    dsimp only
    intro habs
    exact absurd habs (by decide)
  · cases hst : cb.state with
    | closed => simp [hst]
    | opened => simp only [hst]; intro _; exact h hst
    | halfOpen => simp [hst]

/-- The admission check only admits non-open states. -/
theorem canExecuteStep_true_not_open (now : Nat) (cb : CB)
    (h : (canExecuteStep now cb).1 = true) :
    (canExecuteStep now cb).2.state ≠ CBState.opened := by
  revert h
  unfold canExecuteStep
  split
  · next hcond =>
    unfold transitionToHalfOpen
    rw [if_pos (by rw [hcond.1]; decide)]
    dsimp only
    intro _
    decide
  · cases hst : cb.state <;> simp [hst]

/-- Recording a failure from a non-open state restores the open-state time
invariant. -/
theorem recordFailure_wfInv (now : Nat) (cb : CB) (h : cb.state ≠ CBState.opened) :
    (recordFailure now cb).state = CBState.opened →
      (recordFailure now cb).lastFailureTime = (recordFailure now cb).lastStateChange := by
  unfold recordFailure
  dsimp only
  cases hst : cb.state with
  | closed =>
    dsimp only
    split
    · unfold transitionToOpen
      rw [if_pos (by simp)]
      intro _
      rfl
    · intro habs
      simp at habs
  | opened => exact absurd hst h
  | halfOpen =>
    dsimp only
    unfold transitionToOpen
    rw [if_pos (by simp)]
    intro _
    rfl

/-- Recording a success never produces the open state. -/
theorem recordSuccess_not_open (now : Nat) (cb : CB) (h : cb.state ≠ CBState.opened) :
    (recordSuccess now cb).state ≠ CBState.opened := by
  unfold recordSuccess
  dsimp only
  split
  · unfold transitionToClosed
    split
    · simp
    · next hcond hne =>
      rw [hcond.1]
      decide
  · exact h

/-- One `Execute` call preserves the open-state time invariant. -/
theorem cbExecute_wfInv (now : Nat) (res : StratRes) (cb : CB)
    (h : cb.state = CBState.opened → cb.lastFailureTime = cb.lastStateChange) :
    (cbExecute now res cb).cb.state = CBState.opened →
      (cbExecute now res cb).cb.lastFailureTime = (cbExecute now res cb).cb.lastStateChange := by
  unfold cbExecute
  cases hce : canExecuteStep now cb with
  | mk ok cb1 =>
    cases ok with
    | false =>
      dsimp only
      intro hst
      have h1 := canExecuteStep_wfInv now cb h
      rw [hce] at h1
      exact h1 hst
    | true =>
      dsimp only
      have hno : cb1.state ≠ CBState.opened := by
        have h1 := canExecuteStep_true_not_open now cb (by rw [hce])
        rw [hce] at h1
        exact h1
      cases res with
      | ok p =>
        dsimp only
        intro hst
        exact absurd hst (recordSuccess_not_open now (recordRequest cb1) hno)
      | err r =>
        dsimp only
        exact recordFailure_wfInv now (recordRequest cb1) hno

/-- Every breaker reachable from a fresh one satisfies the open-state time
invariant. -/
theorem runOps_wfInv (ops : List CBOp) :
    ∀ cb : CB, (cb.state = CBState.opened → cb.lastFailureTime = cb.lastStateChange) →
      ((runOps cb ops).state = CBState.opened →
        (runOps cb ops).lastFailureTime = (runOps cb ops).lastStateChange) := by
  induction ops with
  | nil => intro cb h; exact h
  | cons op ops ih =>
    intro cb h
    exact ih (cbExecute op.now op.res cb).cb (cbExecute_wfInv op.now op.res cb h)

/-- C1: every breaker reachable by a sequence of guarded executions from a
fresh breaker follows the specified state machine: in `closed` a failure
opens it exactly when the failure count reaches the threshold; in `open` the
next admission check (lazily) moves it to `half_open` once the reset timeout
has elapsed since the transition; in `half_open` a success closes it exactly
when the success count reaches the probe limit and any failure reopens it;
and each of the three transition functions resets both counters to zero. -/
theorem C1_circuit_breaker_state_machine :
    ∀ (ft rt hl now0 : Nat) (ops : List CBOp),
      (∀ now r, (runOps (newCircuitBreakerWithConfig ft rt hl now0) ops).state = CBState.closed →
        ((cbExecute now (StratRes.err r) (runOps (newCircuitBreakerWithConfig ft rt hl now0) ops)).cb.state = CBState.opened ↔
          (runOps (newCircuitBreakerWithConfig ft rt hl now0) ops).failureThreshold ≤
            (runOps (newCircuitBreakerWithConfig ft rt hl now0) ops).failureCount + 1))
      ∧ (∀ now, (runOps (newCircuitBreakerWithConfig ft rt hl now0) ops).state = CBState.opened →
          (runOps (newCircuitBreakerWithConfig ft rt hl now0) ops).lastStateChange +
            (runOps (newCircuitBreakerWithConfig ft rt hl now0) ops).resetTimeout ≤ now →
          (canExecuteStep now (runOps (newCircuitBreakerWithConfig ft rt hl now0) ops)).2.state = CBState.halfOpen)
      ∧ (∀ now p, (runOps (newCircuitBreakerWithConfig ft rt hl now0) ops).state = CBState.halfOpen →
          (runOps (newCircuitBreakerWithConfig ft rt hl now0) ops).successCount <
            (runOps (newCircuitBreakerWithConfig ft rt hl now0) ops).halfOpenLimit →
          ((cbExecute now (StratRes.ok p) (runOps (newCircuitBreakerWithConfig ft rt hl now0) ops)).cb.state = CBState.closed ↔
            (runOps (newCircuitBreakerWithConfig ft rt hl now0) ops).halfOpenLimit ≤
              (runOps (newCircuitBreakerWithConfig ft rt hl now0) ops).successCount + 1))
      ∧ (∀ now r, (runOps (newCircuitBreakerWithConfig ft rt hl now0) ops).state = CBState.halfOpen →
          (runOps (newCircuitBreakerWithConfig ft rt hl now0) ops).successCount <
            (runOps (newCircuitBreakerWithConfig ft rt hl now0) ops).halfOpenLimit →
          (cbExecute now (StratRes.err r) (runOps (newCircuitBreakerWithConfig ft rt hl now0) ops)).cb.state = CBState.opened)
      ∧ (∀ (c : CB) (now : Nat),
          (c.state ≠ CBState.opened → (transitionToOpen now c).failureCount = 0 ∧
            (transitionToOpen now c).successCount = 0)
          ∧ (c.state ≠ CBState.halfOpen → (transitionToHalfOpen now c).failureCount = 0 ∧
            (transitionToHalfOpen now c).successCount = 0)
          ∧ (c.state ≠ CBState.closed → (transitionToClosed now c).failureCount = 0 ∧
            (transitionToClosed now c).successCount = 0)) := by
  intro ft rt hl now0 ops
  refine ⟨?_, ?_, ?_, ?_, ?_⟩
  · intro now r hc
    exact closed_failure_step now r _ hc
  · intro now ho ht
    have hinv := runOps_wfInv ops (newCircuitBreakerWithConfig ft rt hl now0)
      (by intro habs; simp [newCircuitBreakerWithConfig] at habs)
    exact open_timeout_step now _ ho (hinv ho) ht
  · intro now p hh hadm
    exact halfopen_success_step now p _ hh hadm
  · intro now r hh hadm
    exact halfopen_failure_step now r _ hh hadm
  · intro c now
    refine ⟨?_, ?_, ?_⟩
    · intro hne
      unfold transitionToOpen
      rw [if_pos hne]
      exact ⟨rfl, rfl⟩
    · intro hne
      unfold transitionToHalfOpen
      rw [if_pos hne]
      exact ⟨rfl, rfl⟩
    · intro hne
      unfold transitionToClosed
      rw [if_pos hne]
      exact ⟨rfl, rfl⟩

/-- Witness for C1: after two failures a threshold-2 breaker is open, and
the first admission check after the reset timeout moves it to half-open. -/
theorem C1_circuit_breaker_state_machine_witness :
    (canExecuteStep 40
      (runOps (newCircuitBreakerWithConfig 2 30 1 0)
        [⟨5, StratRes.err true⟩, ⟨6, StratRes.err true⟩])).2.state = CBState.halfOpen :=
  (C1_circuit_breaker_state_machine 2 30 1 0
    [⟨5, StratRes.err true⟩, ⟨6, StratRes.err true⟩]).2.1 40 (by decide) (by decide)

/-! ### C5 — batch jobs complete with one result per URL -/

/-- The per-URL fetch always stamps the input URL into its result. -/
theorem doScrapeSD_url (validate : String → Option String) (domainOf : String → String)
    (cbOf : String → CB) (retryAttempts delay : Nat)
    (strat : String → Nat → StratRes) (tm : String → Nat → Nat)
    (now : Nat) (u : String) :
    (doScrapeSD validate domainOf cbOf retryAttempts delay strat tm now u).url = u := by
  unfold doScrapeSD
  split <;> rfl

/-- C5: a batch job that runs to completion carries exactly one result per
submitted URL (the multiset of result URLs is the submitted list), ends in
status `completed` with progress 100 and `completed_at` set, regardless of
whether individual results carry errors. -/
theorem C5_batch_job_results :
    ∀ (validate : String → Option String) (domainOf : String → String)
      (cbOf : String → CB) (retryAttempts delay : Nat)
      (strat : String → Nat → StratRes) (tm : String → Nat → Nat)
      (nowF now1 now2 : Nat) (scrapeSiteF : String → List SD) (job : Job),
      job.request.siteURL = "" →
      (executeScrapingJob
          (scrapeURLs (doScrapeSD validate domainOf cbOf retryAttempts delay strat tm nowF))
          scrapeSiteF now1 now2 job).results.map (fun r => r.url) = job.request.urls
      ∧ (executeScrapingJob
          (scrapeURLs (doScrapeSD validate domainOf cbOf retryAttempts delay strat tm nowF))
          scrapeSiteF now1 now2 job).results.length = job.request.urls.length
      ∧ (∀ r ∈ (executeScrapingJob
          (scrapeURLs (doScrapeSD validate domainOf cbOf retryAttempts delay strat tm nowF))
          scrapeSiteF now1 now2 job).results, r.url ∈ job.request.urls)
      ∧ (executeScrapingJob
          (scrapeURLs (doScrapeSD validate domainOf cbOf retryAttempts delay strat tm nowF))
          scrapeSiteF now1 now2 job).status = "completed"
      ∧ (executeScrapingJob
          (scrapeURLs (doScrapeSD validate domainOf cbOf retryAttempts delay strat tm nowF))
          scrapeSiteF now1 now2 job).progress = 100
      ∧ (executeScrapingJob
          (scrapeURLs (doScrapeSD validate domainOf cbOf retryAttempts delay strat tm nowF))
          scrapeSiteF now1 now2 job).completedAt = some now2
      ∧ (executeScrapingJob
          (scrapeURLs (doScrapeSD validate domainOf cbOf retryAttempts delay strat tm nowF))
          scrapeSiteF now1 now2 job).startedAt = some now1 := by
  intro validate domainOf cbOf retryAttempts delay strat tm nowF now1 now2 scrapeSiteF job h
  have hres : (executeScrapingJob
      (scrapeURLs (doScrapeSD validate domainOf cbOf retryAttempts delay strat tm nowF))
      scrapeSiteF now1 now2 job).results =
      job.request.urls.map (doScrapeSD validate domainOf cbOf retryAttempts delay strat tm nowF) := by
    simp [executeScrapingJob, scrapeURLs, h]
  have hmap : (executeScrapingJob
      (scrapeURLs (doScrapeSD validate domainOf cbOf retryAttempts delay strat tm nowF))
      scrapeSiteF now1 now2 job).results.map (fun r => r.url) = job.request.urls := by
    rw [hres, List.map_map]
    have hcongr : ∀ u ∈ job.request.urls,
        ((fun r : SD => r.url) ∘
          doScrapeSD validate domainOf cbOf retryAttempts delay strat tm nowF) u = id u := by
      intro u _
      exact doScrapeSD_url validate domainOf cbOf retryAttempts delay strat tm nowF u
    rw [List.map_congr_left hcongr, List.map_id]
  refine ⟨hmap, ?_, ?_, ?_, ?_, ?_, ?_⟩
  · have := congrArg List.length hmap
    simpa using this
  · intro r hr
    have hmem : r.url ∈ (executeScrapingJob
        (scrapeURLs (doScrapeSD validate domainOf cbOf retryAttempts delay strat tm nowF))
        scrapeSiteF now1 now2 job).results.map (fun r => r.url) :=
      List.mem_map_of_mem _ hr
    rw [hmap] at hmem
    exact hmem
  · simp [executeScrapingJob]
  · simp [executeScrapingJob]
  · simp [executeScrapingJob]
  · simp [executeScrapingJob]

/-- Witness for C5: a concrete two-URL batch job completes with both URLs
answered, even though one fetch errors. -/
theorem C5_batch_job_results_witness :
    (executeScrapingJob
        (scrapeURLs (doScrapeSD (fun _ => none) (fun _ => "h") (fun _ => newCircuitBreaker 3 5 0)
          1 1 (fun u _ => if u = "https://a" then StratRes.ok ⟨200, 5, "t", ""⟩ else StratRes.err true)
          (fun _ _ => 1) 2))
        (fun _ => []) 3 4
        (newPendingJob "job-1" ⟨["https://a", "https://b"], ""⟩ 0)).results.map (fun r => r.url) =
      ["https://a", "https://b"]
    ∧ (executeScrapingJob
        (scrapeURLs (doScrapeSD (fun _ => none) (fun _ => "h") (fun _ => newCircuitBreaker 3 5 0)
          1 1 (fun u _ => if u = "https://a" then StratRes.ok ⟨200, 5, "t", ""⟩ else StratRes.err true)
          (fun _ _ => 1) 2))
        (fun _ => []) 3 4
        (newPendingJob "job-1" ⟨["https://a", "https://b"], ""⟩ 0)).status = "completed" :=
  ⟨(C5_batch_job_results (fun _ => none) (fun _ => "h") (fun _ => newCircuitBreaker 3 5 0)
      1 1 (fun u _ => if u = "https://a" then StratRes.ok ⟨200, 5, "t", ""⟩ else StratRes.err true)
      (fun _ _ => 1) 2 3 4 (fun _ => [])
      (newPendingJob "job-1" ⟨["https://a", "https://b"], ""⟩ 0) rfl).1,
   (C5_batch_job_results (fun _ => none) (fun _ => "h") (fun _ => newCircuitBreaker 3 5 0)
      1 1 (fun u _ => if u = "https://a" then StratRes.ok ⟨200, 5, "t", ""⟩ else StratRes.err true)
      (fun _ _ => 1) 2 3 4 (fun _ => [])
      (newPendingJob "job-1" ⟨["https://a", "https://b"], ""⟩ 0) rfl).2.2.2.1⟩

/-! ### C6 — pagination executor -/

/-- The pagination worklist loop adds at most `maxPages - pageCount` results
to the accumulator. -/
theorem scrapeSiteLoop_length (fetch : String → SD) (maxPages : Nat) :
    ∀ (wl visited : List String) (pc : Nat) (acc : List SD),
      (scrapeSiteLoop fetch maxPages wl visited pc acc).length ≤
        acc.length + (maxPages - pc) := by
  intro wl visited pc acc
  induction wl, visited, pc, acc using scrapeSiteLoop.induct fetch maxPages with
  | case1 visited pc acc =>
    simp [scrapeSiteLoop]
  | case2 u rest visited pc acc hlt hvis ih =>
    rw [scrapeSiteLoop]
    simp only [dif_pos hlt, if_pos hvis]
    exact ih
  | case3 u rest visited pc acc hlt hvis r wl ih =>
    rw [scrapeSiteLoop]
    simp only [dif_pos hlt, if_neg hvis]
    calc _ ≤ (acc ++ [fetch u]).length + (maxPages - (pc + 1)) := ih
      _ ≤ acc.length + (maxPages - pc) := by
          simp only [List.length_append, List.length_cons, List.length_nil]
          omega
  | case4 u rest visited pc acc hge =>
    rw [scrapeSiteLoop]
    simp only [dif_neg hge]
    omega

/-- The pagination worklist loop only appends results of URLs it has not
visited before: the produced suffix is `us.map fetch` for a duplicate-free
list `us` disjoint from the visited set. -/
theorem scrapeSiteLoop_nodup (fetch : String → SD) (maxPages : Nat) :
    ∀ (wl visited : List String) (pc : Nat) (acc : List SD),
      ∀ us0 : List String, acc = us0.map fetch → us0.Nodup → (∀ u ∈ us0, u ∈ visited) →
      ∃ us : List String, scrapeSiteLoop fetch maxPages wl visited pc acc = us.map fetch ∧
        us.Nodup := by
  intro wl visited pc acc
  induction wl, visited, pc, acc using scrapeSiteLoop.induct fetch maxPages with
  | case1 visited pc acc =>
    intro us0 hacc hnd _
    exact ⟨us0, by simp [scrapeSiteLoop, hacc], hnd⟩
  | case2 u rest visited pc acc hlt hvis ih =>
    intro us0 hacc hnd hsub
    rw [scrapeSiteLoop]
    simp only [dif_pos hlt, if_pos hvis]
    exact ih us0 hacc hnd hsub
  | case3 u rest visited pc acc hlt hvis r wl ih =>
    intro us0 hacc hnd hsub
    rw [scrapeSiteLoop]
    simp only [dif_pos hlt, if_neg hvis]
    have hunotvis : u ∉ visited := by
      intro hmem
      exact hvis (List.elem_eq_true_of_mem hmem)
    refine ih (us0 ++ [u]) ?_ ?_ ?_
    · rw [hacc, List.map_append]
      rfl
    · have hnotin : u ∉ us0 := fun hm => hunotvis (hsub u hm)
      refine List.Nodup.append hnd (by simp) ?_
      intro a ha hb
      simp only [List.mem_singleton] at hb
      subst hb
      exact hnotin ha
    · intro v hv
      rcases List.mem_append.mp hv with hv | hv
      · exact List.mem_cons_of_mem u (hsub v hv)
      · simp only [List.mem_singleton] at hv
        rw [hv]
        exact List.mem_cons_self u visited
  | case4 u rest visited pc acc hge =>
    intro us0 hacc hnd _
    rw [scrapeSiteLoop]
    simp only [dif_neg hge]
    exact ⟨us0, hacc, hnd⟩

/-- C6: in pagination mode with bound `N ≥ 1` the job yields at most `N`
results; the result list is the fetched URLs in fetch order with no URL
fetched twice; when the seed page yields no `next_url` exactly the seed's
result is produced; and with `N = 1` exactly one result is produced no
matter what `next_url` the seed returns. -/
theorem C6_pagination_bound :
    ∀ (fetch : String → SD) (maxPages : Nat) (startURL : String),
      1 ≤ maxPages →
      (scrapeSite fetch maxPages startURL).length ≤ maxPages
      ∧ (∃ us : List String, scrapeSite fetch maxPages startURL = us.map fetch ∧ us.Nodup)
      ∧ ((fetch startURL).nextURL = "" →
          scrapeSite fetch maxPages startURL = [fetch startURL])
      ∧ (maxPages = 1 → scrapeSite fetch maxPages startURL = [fetch startURL]) := by
  intro fetch maxPages startURL h1
  refine ⟨?_, ?_, ?_, ?_⟩
  · have hlen := scrapeSiteLoop_length fetch maxPages [startURL] [] 0 []
    simpa using hlen
  · exact scrapeSiteLoop_nodup fetch maxPages [startURL] [] 0 [] [] (by simp) (by simp)
      (by simp)
  · intro hnext
    have h0 : 0 < maxPages := h1
    simp [scrapeSite, scrapeSiteLoop, h0, hnext]
  · intro hone
    subst hone
    simp [scrapeSite, scrapeSiteLoop]

/-- Witness for C6: with bound 3 and a seed page without a next link,
exactly the seed's result is produced. -/
theorem C6_pagination_bound_witness :
    scrapeSite (fun u => ⟨u, "t", 200, 1, none, 0, ""⟩) 3 "https://s" =
      [⟨"https://s", "t", 200, 1, none, 0, ""⟩] :=
  (C6_pagination_bound (fun u => ⟨u, "t", 200, 1, none, 0, ""⟩) 3 "https://s"
    (by decide)).2.2.1 rfl

/-! ### C9 — POST /scrape response contract -/

/-- C9: `POST /scrape` answers `202 Accepted` with the fresh job id and
status `accepted` whenever the body decodes and at least one of `urls` /
`site_url` is populated and the job is persisted; it answers 400 when the
body does not decode as a request or when both fields are absent/empty, and
500 when persisting fails.  The closing conjuncts pin the decoder to
`encoding/json` behavior on concrete bodies: a `null` element in `urls`
decodes to the empty string (so the request is accepted), field names match
case-insensitively (so an `URLS` key populates `urls`), and a duplicate
mixed-case `SITE_URL` key carrying a number is a decode error (400). -/
theorem C9_handle_scrape :
    ∀ (body : String) (saveOk : Bool) (newID : String) (req : ScrapeRequest),
      (decodeScrapeRequest body = some req → (req.urls ≠ [] ∨ req.siteURL ≠ "") →
        saveOk = true →
        handleScrape "POST" body saveOk newID =
          HandlerResp.accepted newID "accepted" "Scraping job created successfully"
        ∧ respCode (handleScrape "POST" body saveOk newID) = 202)
      ∧ (decodeScrapeRequest body = none →
          handleScrape "POST" body saveOk newID =
            HandlerResp.httpError 400 "Invalid request body")
      ∧ (decodeScrapeRequest body = some req → req.urls = [] → req.siteURL = "" →
          handleScrape "POST" body saveOk newID =
            HandlerResp.httpError 400 "No URLs provided")
      ∧ (decodeScrapeRequest body = some req → (req.urls ≠ [] ∨ req.siteURL ≠ "") →
          saveOk = false →
          handleScrape "POST" body saveOk newID =
            HandlerResp.httpError 500 "Failed to save job")
      ∧ handleScrape "POST" "\x7b\"urls\":[null]\x7d" true newID =
          HandlerResp.accepted newID "accepted" "Scraping job created successfully"
      ∧ handleScrape "POST" "\x7b\"URLS\":[\"https://a\"]\x7d" true newID =
          HandlerResp.accepted newID "accepted" "Scraping job created successfully"
      ∧ handleScrape "POST" "\x7b\"urls\":[\"a\"],\"site_url\":\"b\",\"SITE_URL\":5\x7d"
          saveOk newID = HandlerResp.httpError 400 "Invalid request body" := by
  intro body saveOk newID req
  have hdup : decodeScrapeRequest
      "\x7b\"urls\":[\"a\"],\"site_url\":\"b\",\"SITE_URL\":5\x7d" = none := by rfl
  refine ⟨?_, ?_, ?_, ?_, by rfl, by rfl, by simp [handleScrape, hdup]⟩
  · intro hdec hpop hsave
    have hne : ¬(req.siteURL = "" ∧ req.urls = []) := by
      rcases hpop with h | h
      · intro hcontra; exact h hcontra.2
      · intro hcontra; exact h hcontra.1
    constructor
    · simp [handleScrape, hdec, hne, hsave]
    · simp [handleScrape, hdec, hne, hsave, respCode]
  · intro hdec
    simp [handleScrape, hdec]
  · intro hdec hurls hsite
    simp [handleScrape, hdec, hurls, hsite]
  · intro hdec hpop hsave
    have hne : ¬(req.siteURL = "" ∧ req.urls = []) := by
      rcases hpop with h | h
      · intro hcontra; exact h hcontra.2
      · intro hcontra; exact h hcontra.1
    simp [handleScrape, hdec, hne, hsave]

/-- Witness for C9: a body with one URL is accepted with a 202 and the
returned job id. -/
theorem C9_handle_scrape_witness :
    handleScrape "POST" "\x7b\"urls\":[\"https://a\"]\x7d" true "id-1" =
      HandlerResp.accepted "id-1" "accepted" "Scraping job created successfully"
    ∧ respCode (handleScrape "POST" "\x7b\"urls\":[\"https://a\"]\x7d" true "id-1") = 202 :=
  (C9_handle_scrape "\x7b\"urls\":[\"https://a\"]\x7d" true "id-1"
      { urls := ["https://a"], siteURL := "" }).1
    (by rfl) (Or.inl (by decide)) rfl

/-! ### C10 — both fields present: accepted, pagination wins; empty urls
list: rejected -/

/-- C10: a request carrying both a non-empty `urls` list and a non-empty
`site_url` is accepted (202), and execution then runs pagination mode on
`site_url`, ignoring the `urls` list entirely (the results do not depend on
the batch scraper); a request whose `urls` decodes to the empty list with no
`site_url` is rejected with 400.  The closing conjunct separates acceptance
from decoder fidelity: a both-fields body that additionally repeats the site
field as `SITE_URL` with a number fails the (case-insensitive) decode and is
rejected with 400, not accepted. -/
theorem C10_both_fields_pagination :
    (∀ (body : String) (newID : String) (req : ScrapeRequest),
      decodeScrapeRequest body = some req → req.urls ≠ [] → req.siteURL ≠ "" →
      respCode (handleScrape "POST" body true newID) = 202)
    ∧ (∀ (scrapeUrlsF scrapeUrlsG : List String → List SD) (scrapeSiteF : String → List SD)
        (now1 now2 : Nat) (job : Job),
        job.request.siteURL ≠ "" →
        (executeScrapingJob scrapeUrlsF scrapeSiteF now1 now2 job).results =
          scrapeSiteF job.request.siteURL
        ∧ (executeScrapingJob scrapeUrlsF scrapeSiteF now1 now2 job).results =
            (executeScrapingJob scrapeUrlsG scrapeSiteF now1 now2 job).results)
    ∧ (∀ (saveOk : Bool) (newID : String),
        handleScrape "POST" "\x7b\"urls\":[]\x7d" saveOk newID =
          HandlerResp.httpError 400 "No URLs provided")
    ∧ (∀ (saveOk : Bool) (newID : String),
        handleScrape "POST"
          "\x7b\"urls\":[\"https://a\"],\"site_url\":\"https://b\",\"SITE_URL\":5\x7d"
          saveOk newID = HandlerResp.httpError 400 "Invalid request body") := by
  refine ⟨?_, ?_, ?_, ?_⟩
  · intro body newID req hdec hurls hsite
    have hne : ¬(req.siteURL = "" ∧ req.urls = []) := fun hcontra => hsite hcontra.1
    simp [handleScrape, hdec, hne, respCode]
  · intro scrapeUrlsF scrapeUrlsG scrapeSiteF now1 now2 job h
    constructor
    · simp [executeScrapingJob, h]
    · simp [executeScrapingJob, h]
  · intro saveOk newID
    have hdec : decodeScrapeRequest "\x7b\"urls\":[]\x7d" =
        some { urls := [], siteURL := "" } := by rfl
    simp [handleScrape, hdec]
  · intro saveOk newID
    have hdec : decodeScrapeRequest
        "\x7b\"urls\":[\"https://a\"],\"site_url\":\"https://b\",\"SITE_URL\":5\x7d" =
        none := by rfl
    simp [handleScrape, hdec]

/-- Witness for C10: a body with both fields populated is accepted, and a
job whose request carries a site URL executes pagination regardless of the
batch scraper. -/
theorem C10_both_fields_pagination_witness :
    respCode (handleScrape "POST"
      "\x7b\"urls\":[\"https://a\"],\"site_url\":\"https://b\"\x7d" true "id-2") = 202
    ∧ (executeScrapingJob (fun _ => [])
        (fun s => [⟨s, "t", 200, 1, none, 0, ""⟩]) 1 2
        (newPendingJob "id-2" ⟨["https://a"], "https://b"⟩ 0)).results =
        [⟨"https://b", "t", 200, 1, none, 0, ""⟩] :=
  ⟨C10_both_fields_pagination.1 "\x7b\"urls\":[\"https://a\"],\"site_url\":\"https://b\"\x7d"
      "id-2" { urls := ["https://a"], siteURL := "https://b" } (by rfl)
      (by decide) (by decide),
   (C10_both_fields_pagination.2.1 (fun _ => []) (fun _ => [])
      (fun s => [⟨s, "t", 200, 1, none, 0, ""⟩]) 1 2
      (newPendingJob "id-2" ⟨["https://a"], "https://b"⟩ 0) (by decide)).1⟩

end Arachne
